import Mathlib

/-!
Verification of the dsftp SFTP-manager core (`src/gui/src-tauri/src/lib.rs`).

The Rust code is shallowly embedded: strings are `List Char` (so every
definition kernel-computes on concrete inputs), the container runtime and
the two JSON stores are explicit values threaded through the operations,
and each `run_command` invocation an operation performs is recorded in an
explicit trace.  Rust `u16`/`u64` parsing is `Nat` with the explicit bound.
-/

/-- Rust `String`/`&str`, modelled as its list of characters. -/
abbrev Str := List Char

/-- Rust `str::trim`: drop whitespace from both ends (`Char.isWhitespace`
stands in for Rust's Unicode `char::is_whitespace`). -/
def trim (s : Str) : Str :=
  ((s.dropWhile Char.isWhitespace).reverse.dropWhile Char.isWhitespace).reverse

/-- Rust `str::starts_with(pat)`: `pat` is a prefix of `s`. -/
def str_starts_with : Str → Str → Bool
  | _, [] => true
  | [], _ :: _ => false
  | a :: as, b :: bs => a == b && str_starts_with as bs

/-- Rust `str::to_lowercase` (`Char.toLower` stands in for the Unicode map;
they agree on ASCII). -/
def to_lowercase (s : Str) : Str := s.map Char.toLower

/-- Rust `str::find(pat)` for a string pattern: index of the first
occurrence of `pat` in `s`, if any. -/
def find_sub (pat : Str) : Str → Option Nat
  | [] => if str_starts_with [] pat then some 0 else none
  | c :: rest =>
    if str_starts_with (c :: rest) pat then some 0
    else (find_sub pat rest).map (· + 1)

/-- Rust `str::contains(pat)`. -/
def contains_sub (pat : Str) (s : Str) : Bool := (find_sub pat s).isSome

/-- Split at every occurrence of one character, keeping empty pieces:
Rust `str::split(c)` as a list. -/
def split_on_char (sep : Char) : Str → List Str
  | [] => [[]]
  | c :: rest =>
    if c == sep then [] :: split_on_char sep rest
    else
      match split_on_char sep rest with
      | w :: ws => (c :: w) :: ws
      | [] => [[c]]

/-- Rust `str::lines()`: split on `'\n'`, drop the final empty piece a
trailing newline would create, and strip one trailing `'\r'` per line. -/
def rust_lines (s : Str) : List Str :=
  let pieces := split_on_char '\n' s
  let pieces := if pieces.getLast? = some [] then pieces.dropLast else pieces
  pieces.map fun l => if l.getLast? = some '\r' then l.dropLast else l

/-- Helper for `split_whitespace`: `acc` holds the current word reversed. -/
def split_whitespace_aux : Str → Str → List Str
  | [], acc => if acc.isEmpty then [] else [acc.reverse]
  | c :: rest, acc =>
    if c.isWhitespace then
      if acc.isEmpty then split_whitespace_aux rest []
      else acc.reverse :: split_whitespace_aux rest []
    else split_whitespace_aux rest (c :: acc)

/-- Rust `str::split_whitespace`: the whitespace-separated words, empties
discarded. -/
def split_whitespace (s : Str) : List Str := split_whitespace_aux s []

/-- Rust unsigned-integer `FromStr` up to `max` (e.g. `u16::MAX`,
`u64::MAX`): an optional leading `'+'`, then one or more ASCII digits, and
the value must fit. -/
def parse_uint (max : Nat) (s : Str) : Option Nat :=
  let digits := match s with
    | '+' :: rest => rest
    | _ => s
  if digits.isEmpty || !digits.all Char.isDigit then none
  else
    let v := digits.foldl (fun a c => a * 10 + (c.toNat - 48)) 0
    if v ≤ max then some v else none

/-- Rust `str::trim_end_matches(c)`: remove every trailing occurrence of
the character `c`. -/
def trim_end_matches (c : Char) (s : Str) : Str :=
  (s.reverse.dropWhile (· == c)).reverse

/-- Rust `s.split(sep).next().unwrap()`: the text before the first `sep`
(the whole string when `sep` is absent). -/
def split_first (sep : Char) (s : Str) : Str := s.takeWhile (· != sep)

/-- Rust `s.split(pat).nth(1)` for a string pattern: the second split
segment — the text between the first occurrence of `pat` and the next one
(`none` when `pat` does not occur at all). -/
def split_nth1 (pat : Str) (s : Str) : Option Str :=
  match find_sub pat s with
  | none => none
  | some i =>
    let rest := s.drop (i + pat.length)
    match find_sub pat rest with
    | none => some rest
    | some j => some (rest.take j)

/-- Byte-lexicographic `Ord` on Rust strings (UTF-8 byte order equals
code-point order), as a Boolean `≤`. -/
def str_le : Str → Str → Bool
  | [], _ => true
  | _ :: _, [] => false
  | a :: as, b :: bs =>
    if a.toNat = b.toNat then str_le as bs else decide (a.toNat < b.toNat)

/-- Stable insertion of one element: the new element goes in front of the
first list element it compares `le` to. -/
def insert_sorted (le : α → α → Bool) (a : α) : List α → List α
  | [] => [a]
  | b :: l => if le a b then a :: b :: l else b :: insert_sorted le a l

/-- Rust `slice::sort_by`, modelled as a stable insertion sort.  Rust's
`sort_by` is a stable sort, and for a total preorder comparator every
stable sort produces the same list, so the model is exact; insertion sort
is chosen because it is structural and hence kernel-computable. -/
def sort_by (le : α → α → Bool) : List α → List α
  | [] => []
  | a :: l => insert_sorted le a (sort_by le l)

/-! ## Data model (`lib.rs` structs) -/

/-- `const SFTP_IMAGE: &str = "atmoz/sftp"`. -/
def SFTP_IMAGE : Str := "atmoz/sftp".data

/-- `struct StoredCredentials`. -/
structure StoredCredentials where
  username : Str
  password : Str
  host_path : Str
  container_path : Str
deriving DecidableEq

/-- `struct NetworkConfig` (both fields optional). -/
structure NetworkConfig where
  preferred_interface : Option Str
  preferred_ip : Option Str
deriving DecidableEq

/-- `NetworkConfig::default()` from `derive(Default)`: both fields `None`.
This is also what `load_network_config` yields for a missing or
unparseable file. -/
def network_config_default : NetworkConfig := ⟨none, none⟩

/-- `struct NetworkInterface`. -/
structure NetworkInterface where
  name : Str
  address : Str
  is_vpn : Bool
deriving DecidableEq

/-- `struct CommandResult`. -/
structure CommandResult where
  success : Bool
  error : Option Str
deriving DecidableEq

/-- `struct FileEntry` (`size: u64` as a `Nat`). -/
structure FileEntry where
  name : Str
  path : Str
  is_dir : Bool
  size : Nat
deriving DecidableEq

/-! ## Runtime gateway and credential store

Each `run_command("docker", ...)` call site is an oracle field returning
the command's `Result<String, String>`; each invocation an operation makes
is also recorded in a trace. -/

/-- One executed `docker` invocation, by call site, carrying the container
name it was invoked on. -/
inductive DockerCmd where
  | inspect (name : Str)
  | start (name : Str)
  | stop (name : Str)
  | rm_force (name : Str)
  | exec_ls (name : Str) (path : Str)
deriving DecidableEq

/-- The container runtime as oracles: the outcome each `docker`
subcommand would produce for a given name. -/
structure Runtime where
  inspect_image : Str → Except Str Str
  start_cmd : Str → Except Str Str
  stop_cmd : Str → Except Str Str
  rm_cmd : Str → Except Str Str
  exec_ls_cmd : Str → Str → Except Str Str

/-- The credential store (`HashMap<String, StoredCredentials>` held in
`sftp-servers.json`), as a map. -/
def CredStore := Str → Option StoredCredentials

/-- `fn remove_server_credentials`: load the map, remove the key, save. -/
def remove_server_credentials (store : CredStore) (name : Str) : CredStore :=
  fun k => if k = name then none else store k

/-- `fn is_sftp_container`: inspect the image reference; on success,
trim it and compare against `SFTP_IMAGE` exactly or with a `":"`-tag
suffix; any command failure is `false`. -/
def is_sftp_container (rt : Runtime) (name : Str) : Bool :=
  match rt.inspect_image name with
  | .ok output =>
    let image := trim output
    image == SFTP_IMAGE || str_starts_with image (SFTP_IMAGE ++ ":".data)
  | .error _ => false

/-- What a mutating lifecycle operation produces: its `CommandResult`, the
credential store it leaves behind, and the `docker` invocations it made. -/
structure OpOutcome where
  result : CommandResult
  store : CredStore
  trace : List DockerCmd

/-- The fixed ownership-denial result the three mutating operations
return: `"Not an SFTP container (atmoz/sftp)"`. -/
def not_sftp_error : CommandResult :=
  ⟨false, some "Not an SFTP container (atmoz/sftp)".data⟩

/-- `fn start_server`: gate on `is_sftp_container`, then `docker start`. -/
def start_server (rt : Runtime) (store : CredStore) (name : Str) : OpOutcome :=
  if !(is_sftp_container rt name) then ⟨not_sftp_error, store, [.inspect name]⟩
  else
    match rt.start_cmd name with
    | .ok _ => ⟨⟨true, none⟩, store, [.inspect name, .start name]⟩
    | .error e => ⟨⟨false, some e⟩, store, [.inspect name, .start name]⟩

/-- `fn stop_server`: gate on `is_sftp_container`, then `docker stop`. -/
def stop_server (rt : Runtime) (store : CredStore) (name : Str) : OpOutcome :=
  if !(is_sftp_container rt name) then ⟨not_sftp_error, store, [.inspect name]⟩
  else
    match rt.stop_cmd name with
    | .ok _ => ⟨⟨true, none⟩, store, [.inspect name, .stop name]⟩
    | .error e => ⟨⟨false, some e⟩, store, [.inspect name, .stop name]⟩

/-- `fn remove_server`: gate on `is_sftp_container`, then `docker rm -f`;
only on success are the stored credentials removed. -/
def remove_server (rt : Runtime) (store : CredStore) (name : Str) : OpOutcome :=
  if !(is_sftp_container rt name) then ⟨not_sftp_error, store, [.inspect name]⟩
  else
    match rt.rm_cmd name with
    | .ok _ =>
      ⟨⟨true, none⟩, remove_server_credentials store name,
        [.inspect name, .rm_force name]⟩
    | .error e => ⟨⟨false, some e⟩, store, [.inspect name, .rm_force name]⟩

/-- `fn extract_port`: parse `"<bind>:<hostPort>-><containerPort>/<proto>"`.
`some p` is a normal return of `p`; `none` models the Rust panic raised by
the slice `ports_str[start+1..end]` when `start+1 > end` (first `':'`
after the first `"->"`).  A failed `u16` parse falls through to `0`. -/
def extract_port (ports_str : Str) : Option Nat :=
  match find_sub ":".data ports_str with
  | some start =>
    match find_sub "->".data ports_str with
    | some e =>
      if start + 1 ≤ e then
        match parse_uint 65535 ((ports_str.drop (start + 1)).take (e - (start + 1))) with
        | some port => some port
        | none => some 0
      else none
    | none => some 0
  | none => some 0

/-! ## Network preference, enumerator and binding resolver -/

/-- `fn is_vpn_interface`: case-insensitive substring match of the name
against the fixed tunnel/VPN identifier list. -/
def is_vpn_interface (name : Str) : Bool :=
  let vpn_patterns : List Str :=
    ["zerotier".data, "tailscale".data, "wireguard".data, "wg0".data, "wg1".data,
     "tun".data, "tap".data, "vpn".data, "hamachi".data, "radmin".data]
  let name_lower := to_lowercase name
  vpn_patterns.any fun p => contains_sub p name_lower

/-- `fn set_network_preference` on the stored `NetworkConfig`: the `ip`
branch wins, else the `interface` branch, else the loaded config is saved
back unchanged; the result is always success. -/
def set_network_preference (ip : Option Str) (interface : Option Str)
    (stored : NetworkConfig) : NetworkConfig × CommandResult :=
  let config :=
    match ip with
    | some ip_val => ⟨none, some ip_val⟩
    | none =>
      match interface with
      | some iface_val => ⟨some iface_val, none⟩
      | none => stored
  (config, ⟨true, none⟩)

/-- `fn clear_network_preference`: save `NetworkConfig::default()`,
ignoring the stored state; the result is always success. -/
def clear_network_preference (_stored : NetworkConfig) :
    NetworkConfig × CommandResult :=
  (network_config_default, ⟨true, none⟩)

/-- A sequence of `set_network_preference` calls (each pair is the `ip`
and `interface` argument) applied to a stored config in order. -/
def apply_preference_calls (calls : List (Option Str × Option Str))
    (stored : NetworkConfig) : NetworkConfig :=
  calls.foldl (fun acc call => (set_network_preference call.1 call.2 acc).1) stored

/-- Steps 3–5 of `fn get_current_ip_internal`: first non-VPN interface,
else the first interface, else loopback. -/
def current_ip_step3 (interfaces : List NetworkInterface) :
    Str × Option Str × Bool :=
  match interfaces.find? (fun i => !i.is_vpn) with
  | some iface => (iface.address, some iface.name, false)
  | none =>
    match interfaces.head? with
    | some iface => (iface.address, some iface.name, iface.is_vpn)
    | none => ("127.0.0.1".data, none, false)

/-- Step 2 of `fn get_current_ip_internal`: an interface whose name equals
the preferred interface name. -/
def current_ip_step2 (interfaces : List NetworkInterface)
    (config : NetworkConfig) : Str × Option Str × Bool :=
  match config.preferred_interface.bind
      (fun p => interfaces.find? fun i => i.name == p) with
  | some iface => (iface.address, some iface.name, iface.is_vpn)
  | none => current_ip_step3 interfaces

/-- `fn get_current_ip_internal`: the binding resolver.  Step 1: an
interface whose address equals the preferred IP; then steps 2–5. -/
def get_current_ip_internal (interfaces : List NetworkInterface)
    (config : NetworkConfig) : Str × Option Str × Bool :=
  match config.preferred_ip.bind
      (fun p => interfaces.find? fun i => i.address == p) with
  | some iface => (iface.address, some iface.name, iface.is_vpn)
  | none => current_ip_step2 interfaces config

/-- Modelled from the spec, section 4.3: the five-step resolution order
written as one first-match chain over the enumerated interfaces, to be
compared with `get_current_ip_internal`. -/
def resolve_binding_spec (interfaces : List NetworkInterface)
    (config : NetworkConfig) : Str × Option Str × Bool :=
  let found :=
    (config.preferred_ip.bind fun p => interfaces.find? fun i => i.address == p) <|>
    (config.preferred_interface.bind fun p => interfaces.find? fun i => i.name == p) <|>
    (interfaces.find? fun i => !i.is_vpn) <|>
    interfaces.head?
  match found with
  | some i => (i.address, some i.name, i.is_vpn)
  | none => ("127.0.0.1".data, none, false)

/-- `fn get_current_ip_internal` with the step 4 and step 5 region
replaced by an arbitrary `fallback`: used to state that those steps are
unreachable when the interface list comes from the enumerator. -/
def current_ip_steps_1_to_3 (fallback : Str × Option Str × Bool)
    (interfaces : List NetworkInterface) (config : NetworkConfig) :
    Str × Option Str × Bool :=
  match config.preferred_ip.bind
      (fun p => interfaces.find? fun i => i.address == p) with
  | some iface => (iface.address, some iface.name, iface.is_vpn)
  | none =>
    match config.preferred_interface.bind
        (fun p => interfaces.find? fun i => i.name == p) with
    | some iface => (iface.address, some iface.name, iface.is_vpn)
    | none =>
      match interfaces.find? (fun i => !i.is_vpn) with
      | some iface => (iface.address, some iface.name, false)
      | none => fallback

/-- The synthetic first entry of the enumerator: name `"All Interfaces"`,
address `"0.0.0.0"`, non-VPN. -/
def all_interfaces_entry : NetworkInterface :=
  ⟨"All Interfaces".data, "0.0.0.0".data, false⟩

/-- One iteration of the Linux discovery loop of
`fn list_network_interfaces_internal`: a line starting with an ASCII digit
updates the current interface name from the text after the first `':'`;
a line containing `"inet "` contributes the address before the first `'/'`
unless it is loopback or no interface name is current yet. -/
def linux_interfaces_step (acc : Str × List NetworkInterface) (line : Str) :
    Str × List NetworkInterface :=
  let current_iface := acc.1
  let interfaces := acc.2
  if (match line with | c :: _ => c.isDigit | [] => false) then
    match (split_on_char ':' line).get? 1 with
    | some name => (trim name, interfaces)
    | none => (current_iface, interfaces)
  else if contains_sub "inet ".data line then
    match split_nth1 "inet ".data line with
    | some addr_part =>
      let addr := split_first '/' addr_part
      if !(str_starts_with addr "127.".data) && !current_iface.isEmpty then
        (current_iface,
          interfaces ++ [⟨current_iface, addr, is_vpn_interface current_iface⟩])
      else (current_iface, interfaces)
    | none => (current_iface, interfaces)
  else (current_iface, interfaces)

/-- `fn list_network_interfaces_internal` (Linux branch): the synthetic
"All Interfaces" entry is pushed first, then the parsed output of the
address-enumeration command is folded in. -/
def list_network_interfaces_internal (linux_output : Str) :
    List NetworkInterface :=
  ((rust_lines linux_output).foldl linux_interfaces_step
    ([], [all_interfaces_entry])).2

/-! ## Directory listing (`fn list_files`) -/

/-- The loop body of `fn list_files` for one listing line: lines with
fewer than 9 whitespace-separated fields and entries named `"."` or
`".."` contribute nothing; otherwise `is_dir` comes from the first
permission character, `size` from the 5th field (`u64`, default `0`),
`name` joins the fields from the 9th on, and `path` joins the queried
directory with the name (a `"/"` query joins without a duplicate
separator). -/
def parse_ls_line (path : Str) (line : Str) : Option FileEntry :=
  let parts := split_whitespace line
  if parts.length < 9 then none
  else
    let permissions := parts.getD 0 []
    let size := (parse_uint 18446744073709551615 (parts.getD 4 [])).getD 0
    let name_part := List.intercalate " ".data (parts.drop 8)
    if name_part = ".".data ∨ name_part = "..".data then none
    else
      let is_dir := str_starts_with permissions "d".data
      let full_path :=
        if path = "/".data then "/".data ++ name_part
        else trim_end_matches '/' path ++ "/".data ++ name_part
      some ⟨name_part, full_path, is_dir, size⟩

/-- The comparator of `fn list_files`'s final sort: directories first,
then case-insensitive name order. -/
def file_entry_le (a b : FileEntry) : Bool :=
  match a.is_dir, b.is_dir with
  | true, false => true
  | false, true => false
  | _, _ => str_le (to_lowercase a.name) (to_lowercase b.name)

/-- The pure body of `fn list_files` over the listing's lines: skip the
first (summary) line, parse each remaining line, sort. -/
def list_files_parse_lines (ls : List Str) (path : Str) : List FileEntry :=
  sort_by file_entry_le ((ls.drop 1).filterMap (parse_ls_line path))

/-- The pure body of `fn list_files` on the raw `ls -la` output text. -/
def list_files_parse (output : Str) (path : Str) : List FileEntry :=
  list_files_parse_lines (rust_lines output) path

/-- `fn list_files`: gate on `is_sftp_container`, run `docker exec ls -la`
(propagating its error), then parse and sort. -/
def list_files (rt : Runtime) (name : Str) (path : Str) :
    Except Str (List FileEntry) :=
  if !(is_sftp_container rt name) then .error "Not an SFTP container".data
  else
    match rt.exec_ls_cmd name path with
    | .error e => .error e
    | .ok output => .ok (list_files_parse output path)

/-! ## Concrete runtimes and stores used by witnesses -/

/-- The empty credential store. -/
def empty_store : CredStore := fun _ => none

/-- A runtime in which no container exists: every inspection fails. -/
def rt_denied : Runtime :=
  ⟨fun _ => .error "Error: No such object: ghost".data,
   fun _ => .ok [], fun _ => .ok [], fun _ => .ok [], fun _ _ => .ok []⟩

/-- A runtime owning every name (image `atmoz/sftp`), whose `docker rm -f`
fails. -/
def rt_owned_rmfail : Runtime :=
  ⟨fun _ => .ok "atmoz/sftp".data, fun _ => .ok [], fun _ => .ok [],
   fun _ => .error "Error response from daemon".data, fun _ _ => .ok []⟩

/-! ## Claims -/

/-- C1: `is_sftp_container n` is true iff inspecting `n`'s image reference
succeeds and the trimmed image string equals `"atmoz/sftp"` exactly or
starts with `"atmoz/sftp:"`; any inspection failure (including a
non-existent container) yields false. -/
theorem is_sftp_container_characterisation (rt : Runtime) (n : Str) :
    is_sftp_container rt n = true ↔
      ∃ s, rt.inspect_image n = Except.ok s ∧
        (trim s = SFTP_IMAGE ∨
          str_starts_with (trim s) (SFTP_IMAGE ++ ":".data) = true) := by
  unfold is_sftp_container
  cases h : rt.inspect_image n with
  | ok s =>
    simp only [Bool.or_eq_true, beq_iff_eq]
    constructor
    · intro hor
      exact ⟨s, rfl, hor⟩
    · rintro ⟨s2, hs2, hor⟩
      cases hs2
      exact hor
  | error e =>
    simp only [Bool.false_eq_true, false_iff]
    rintro ⟨s2, hs2, -⟩
    cases hs2

/-- C4 (code bug): the happy path `"0.0.0.0:2222->22/tcp"` yields `2222`
and inputs with no `"->"` or a non-numeric port segment yield `0`, but the
parse is not panic-free: on an input whose first `':'` comes after the
first `"->"`, such as `"0.0.0.0->22/tcp:2222"`, the Rust slice
`ports_str[start+1..end]` has its start index past its end index and
panics (modelled by `none`). -/
theorem extract_port_evaluation :
    extract_port "0.0.0.0:2222->22/tcp".data = some 2222
  ∧ extract_port "2222/tcp".data = some 0
  ∧ extract_port "0.0.0.0:abcd->22/tcp".data = some 0
  ∧ extract_port "0.0.0.0->22/tcp:2222".data = none := by
  refine ⟨by decide, by decide, by decide, by decide⟩

/-- C7: on a stored config with at most one preference set,
`set_network_preference` with an IP stores that IP and clears the
interface name; with an interface name (and no IP) it stores that name
and clears the IP; in every case at most one field is set afterwards. -/
theorem set_network_preference_mutual_exclusion (stored : NetworkConfig)
    (h : stored.preferred_ip = none ∨ stored.preferred_interface = none) :
    (∀ ip other, (set_network_preference (some ip) other stored).1
        = ⟨none, some ip⟩)
  ∧ (∀ iface, (set_network_preference none (some iface) stored).1
        = ⟨some iface, none⟩)
  ∧ (∀ ip other,
      (set_network_preference ip other stored).1.preferred_ip = none
      ∨ (set_network_preference ip other stored).1.preferred_interface = none) := by
  refine ⟨fun ip other => rfl, fun iface => rfl, fun ip other => ?_⟩
  cases ip with
  | some v => exact Or.inr rfl
  | none =>
    cases other with
    | some w => exact Or.inl rfl
    | none => exact h

/-- Witness for C7 at the default config and IP `"10.0.0.5"`. -/
theorem set_network_preference_mutual_exclusion_witness :
    (set_network_preference (some "10.0.0.5".data) none network_config_default).1
      = ⟨none, some "10.0.0.5".data⟩ :=
  (set_network_preference_mutual_exclusion network_config_default
    (Or.inl rfl)).1 "10.0.0.5".data none

/-- C8: `clear_network_preference` stores the never-set default config,
whatever the prior stored state and whatever sequence of
`set_network_preference` calls produced it. -/
theorem clear_network_preference_yields_default (stored : NetworkConfig)
    (calls : List (Option Str × Option Str)) :
    (clear_network_preference stored).1 = network_config_default
  ∧ (clear_network_preference (apply_preference_calls calls stored)).1
      = network_config_default :=
  ⟨rfl, rfl⟩

/-- C10: `set_network_preference` with both arguments absent saves the
loaded config back unchanged and still reports success. -/
theorem set_network_preference_none_none_noop (stored : NetworkConfig) :
    set_network_preference none none stored = (stored, ⟨true, none⟩) := rfl

/-- C2 (counterexample): a name that fails the ownership check does have a
runtime command executed for it — the `docker inspect` of the ownership
check itself — so "executes no runtime command for that name" is false as
stated. -/
theorem ownership_denied_still_runs_inspect :
    is_sftp_container rt_denied "ghost".data = false
  ∧ (start_server rt_denied empty_store "ghost".data).trace
      = [DockerCmd.inspect "ghost".data]
  ∧ (start_server rt_denied empty_store "ghost".data).trace ≠ [] := by
  refine ⟨by decide, rfl, by decide⟩

/-- C2 (amended): on a name failing the ownership check, each of
`start_server`, `stop_server` and `remove_server` returns the fixed
OwnershipDenied message (never raw runtime error text), leaves the
credential store unchanged, and executes no runtime command for that name
beyond the single read-only inspection of the ownership check itself (in
particular no start/stop/remove command). -/
theorem ownership_denied_ops (rt : Runtime) (store : CredStore) (name : Str)
    (h : is_sftp_container rt name = false) :
    start_server rt store name = ⟨not_sftp_error, store, [.inspect name]⟩
  ∧ stop_server rt store name = ⟨not_sftp_error, store, [.inspect name]⟩
  ∧ remove_server rt store name = ⟨not_sftp_error, store, [.inspect name]⟩ := by
  unfold start_server stop_server remove_server
  simp [h]

/-- Witness for C2's amended theorem on a runtime with no containers. -/
theorem ownership_denied_ops_witness :
    stop_server rt_denied empty_store "ghost".data
      = ⟨not_sftp_error, empty_store, [DockerCmd.inspect "ghost".data]⟩ :=
  (ownership_denied_ops rt_denied empty_store "ghost".data (by decide)).2.1

/-- C6: `remove_server` on an owned name is atomic with respect to the
credential store: a failing `docker rm -f` returns its error and leaves
the store untouched; only a successful delete removes the credential
entry and returns success. -/
theorem remove_server_credential_atomicity (rt : Runtime) (store : CredStore)
    (name : Str) (hown : is_sftp_container rt name = true) :
    (∀ e, rt.rm_cmd name = .error e →
      remove_server rt store name
        = ⟨⟨false, some e⟩, store, [.inspect name, .rm_force name]⟩)
  ∧ (∀ o, rt.rm_cmd name = .ok o →
      remove_server rt store name
        = ⟨⟨true, none⟩, remove_server_credentials store name,
            [.inspect name, .rm_force name]⟩) := by
  unfold remove_server
  simp only [hown, Bool.not_true, Bool.false_eq_true, if_false]
  constructor
  · intro e he
    rw [he]
  · intro o ho
    rw [ho]

/-- Witness for C6: an owned name whose `docker rm -f` fails keeps the
store and reports the runtime's error. -/
theorem remove_server_credential_atomicity_witness :
    remove_server rt_owned_rmfail empty_store "srv".data
      = ⟨⟨false, some "Error response from daemon".data⟩, empty_store,
          [DockerCmd.inspect "srv".data, DockerCmd.rm_force "srv".data]⟩ :=
  (remove_server_credential_atomicity rt_owned_rmfail empty_store "srv".data
    (by decide)).1 "Error response from daemon".data rfl

/-- C3: the binding resolver equals, on every interface list (the empty
one included) and every preference state, the five-step first-match
resolution of the spec (`resolve_binding_spec`); being a total function
it is in particular deterministic and returns exactly one triple. -/
theorem get_current_ip_matches_spec (interfaces : List NetworkInterface)
    (config : NetworkConfig) :
    get_current_ip_internal interfaces config
      = resolve_binding_spec interfaces config := by
  unfold get_current_ip_internal resolve_binding_spec current_ip_step2 current_ip_step3
  cases h1 : config.preferred_ip.bind (fun p => interfaces.find? fun i => i.address == p) with
  | some i => simp [h1]
  | none =>
    cases h2 : config.preferred_interface.bind (fun p => interfaces.find? fun i => i.name == p) with
    | some i => simp [h1, h2]
    | none =>
      cases h3 : interfaces.find? (fun i => !i.is_vpn) with
      | some i =>
        have hv := List.find?_some h3
        simp only [Bool.not_eq_true'] at hv
        simp [h1, h2, h3, hv]
      | none =>
        cases h4 : interfaces.head? with
        | some i => simp [h1, h2, h3, h4]
        | none => simp [h1, h2, h3, h4]

/-- Each Linux discovery iteration only appends to the interface list. -/
theorem linux_interfaces_step_only_appends (acc : Str × List NetworkInterface)
    (line : Str) : acc.2 <+: (linux_interfaces_step acc line).2 := by
  unfold linux_interfaces_step
  dsimp only
  repeat' split
  all_goals dsimp only
  all_goals first
    | exact List.prefix_rfl
    | exact List.prefix_append _ _

/-- Folding the discovery loop only appends to the interface list. -/
theorem foldl_linux_step_only_appends (lines : List Str) :
    ∀ acc : Str × List NetworkInterface,
      acc.2 <+: (lines.foldl linux_interfaces_step acc).2 := by
  induction lines with
  | nil =>
    intro acc
    exact List.prefix_rfl
  | cons l ls ih =>
    intro acc
    simp only [List.foldl_cons]
    exact (linux_interfaces_step_only_appends acc l).trans
      (ih (linux_interfaces_step acc l))

/-- The enumerator's output is the synthetic entry followed by the
discovered interfaces. -/
theorem list_network_interfaces_internal_cons (out : Str) :
    ∃ rest, list_network_interfaces_internal out = all_interfaces_entry :: rest := by
  obtain ⟨t, ht⟩ :=
    foldl_linux_step_only_appends (rust_lines out) ([], [all_interfaces_entry])
  exact ⟨t, ht.symm⟩

/-- C9: the enumerator always places the synthetic
`("All Interfaces", "0.0.0.0", non-VPN)` entry first; when neither
preference matches an enumerated entry, resolution over the enumerator's
output picks that entry (bind address `"0.0.0.0"`); and on the
enumerator's output the resolver agrees with its own steps 1–3 whatever
value replaces the step 4/5 region, so those steps are unreachable in the
composed system. -/
theorem enumerator_first_and_resolution (out : Str) (config : NetworkConfig) :
    (list_network_interfaces_internal out).head? = some all_interfaces_entry
  ∧ ((∀ p, config.preferred_ip = some p →
        ∀ i ∈ list_network_interfaces_internal out, ¬ i.address = p) →
     (∀ p, config.preferred_interface = some p →
        ∀ i ∈ list_network_interfaces_internal out, ¬ i.name = p) →
     get_current_ip_internal (list_network_interfaces_internal out) config
        = ("0.0.0.0".data, some "All Interfaces".data, false))
  ∧ (∀ fallback,
      current_ip_steps_1_to_3 fallback (list_network_interfaces_internal out) config
        = get_current_ip_internal (list_network_interfaces_internal out) config) := by
  obtain ⟨rest, hL⟩ := list_network_interfaces_internal_cons out
  rw [hL]
  have hfind3 : (all_interfaces_entry :: rest).find? (fun i => !i.is_vpn)
      = some all_interfaces_entry := List.find?_cons_of_pos _ rfl
  refine ⟨rfl, ?_, ?_⟩
  · intro ha hb
    have h1 : config.preferred_ip.bind
        (fun p => (all_interfaces_entry :: rest).find? fun i => i.address == p) = none := by
      cases hp : config.preferred_ip with
      | none => rfl
      | some p =>
        simp only [Option.some_bind]
        rw [List.find?_eq_none]
        intro x hx
        simp only [beq_iff_eq]
        exact ha p hp x (hL ▸ hx)
    have h2 : config.preferred_interface.bind
        (fun p => (all_interfaces_entry :: rest).find? fun i => i.name == p) = none := by
      cases hp : config.preferred_interface with
      | none => rfl
      | some p =>
        simp only [Option.some_bind]
        rw [List.find?_eq_none]
        intro x hx
        simp only [beq_iff_eq]
        exact hb p hp x (hL ▸ hx)
    unfold get_current_ip_internal current_ip_step2 current_ip_step3
    rw [h1, h2, hfind3]
    rfl
  · intro fallback
    unfold get_current_ip_internal current_ip_steps_1_to_3 current_ip_step2 current_ip_step3
    cases h1 : config.preferred_ip.bind
        (fun p => (all_interfaces_entry :: rest).find? fun i => i.address == p) with
    | some i => rfl
    | none =>
      cases h2 : config.preferred_interface.bind
          (fun p => (all_interfaces_entry :: rest).find? fun i => i.name == p) with
      | some i => rfl
      | none =>
        rw [hfind3]

/-- The byte-lexicographic order is total. -/
theorem str_le_total : ∀ a b : Str, str_le a b = true ∨ str_le b a = true
  | [], _ => Or.inl rfl
  | _ :: _, [] => Or.inr rfl
  | a :: as, b :: bs => by
    by_cases h : a.toNat = b.toNat
    · have h' : b.toNat = a.toNat := h.symm
      rcases str_le_total as bs with ih | ih
      · exact Or.inl (by simp [str_le, h, ih])
      · exact Or.inr (by simp [str_le, h', ih])
    · rcases Nat.lt_or_ge a.toNat b.toNat with hlt | hge
      · exact Or.inl (by simp [str_le, h, hlt])
      · have h' : b.toNat ≠ a.toNat := fun hh => h hh.symm
        have hlt : b.toNat < a.toNat := Nat.lt_of_le_of_ne hge h'
        exact Or.inr (by simp [str_le, h', hlt])

/-- The byte-lexicographic order is transitive. -/
theorem str_le_trans : ∀ a b c : Str,
    str_le a b = true → str_le b c = true → str_le a c = true
  | [], _, _, _, _ => rfl
  | _ :: _, [], _, hab, _ => by simp [str_le] at hab
  | _ :: _, _ :: _, [], _, hbc => by simp [str_le] at hbc
  | a :: as, b :: bs, c :: cs, hab, hbc => by
    simp only [str_le] at hab hbc ⊢
    by_cases h1 : a.toNat = b.toNat <;> by_cases h2 : b.toNat = c.toNat
    · rw [if_pos h1] at hab
      rw [if_pos h2] at hbc
      rw [if_pos (h1.trans h2)]
      exact str_le_trans as bs cs hab hbc
    · have h3 : a.toNat ≠ c.toNat := fun hh => h2 (h1.symm.trans hh)
      rw [if_neg h2] at hbc
      rw [if_neg h3]
      simp only [decide_eq_true_eq] at hbc ⊢
      omega
    · have h3 : a.toNat ≠ c.toNat := fun hh => h1 (hh.trans h2.symm)
      rw [if_neg h1] at hab
      rw [if_neg h3]
      simp only [decide_eq_true_eq] at hab ⊢
      omega
    · rw [if_neg h1] at hab
      rw [if_neg h2] at hbc
      simp only [decide_eq_true_eq] at hab hbc
      have h3 : a.toNat ≠ c.toNat := by omega
      rw [if_neg h3]
      simp only [decide_eq_true_eq]
      omega

/-- The `list_files` comparator is total. -/
theorem file_entry_le_total (a b : FileEntry) :
    file_entry_le a b = true ∨ file_entry_le b a = true := by
  obtain ⟨an, ap, ad, az⟩ := a
  obtain ⟨bn, bp, bd, bz⟩ := b
  unfold file_entry_le
  cases ad <;> cases bd <;>
    first
      | exact Or.inl rfl
      | exact Or.inr rfl
      | exact str_le_total _ _

/-- The `list_files` comparator is transitive. -/
theorem file_entry_le_trans (a b c : FileEntry)
    (hab : file_entry_le a b = true) (hbc : file_entry_le b c = true) :
    file_entry_le a c = true := by
  obtain ⟨an, ap, ad, az⟩ := a
  obtain ⟨bn, bp, bd, bz⟩ := b
  obtain ⟨cn, cp, cd, cz⟩ := c
  unfold file_entry_le at hab hbc ⊢
  cases ad <;> cases bd <;> cases cd <;> simp_all <;>
    exact str_le_trans _ _ _ hab hbc

/-- Membership in a stable insertion. -/
theorem mem_insert_sorted {le : α → α → Bool} {a x : α} {l : List α} :
    x ∈ insert_sorted le a l ↔ x = a ∨ x ∈ l := by
  induction l with
  | nil => simp [insert_sorted]
  | cons b t ih =>
    by_cases h : le a b
    · simp [insert_sorted, if_pos h, List.mem_cons]
    · simp only [insert_sorted, if_neg h, List.mem_cons, ih]
      tauto

/-- Stable insertion into a sorted list keeps it sorted (for a total
transitive comparator). -/
theorem pairwise_insert_sorted {le : α → α → Bool}
    (htrans : ∀ a b c, le a b = true → le b c = true → le a c = true)
    (htotal : ∀ a b, le a b = true ∨ le b a = true)
    (a : α) (l : List α) (hl : l.Pairwise (fun x y => le x y = true)) :
    (insert_sorted le a l).Pairwise (fun x y => le x y = true) := by
  induction l with
  | nil => simp [insert_sorted]
  | cons b t ih =>
    rcases List.pairwise_cons.mp hl with ⟨hb, ht⟩
    by_cases h : le a b = true
    · rw [insert_sorted, if_pos h]
      refine List.pairwise_cons.mpr ⟨?_, hl⟩
      intro x hx
      rcases List.mem_cons.mp hx with rfl | hx
      · exact h
      · exact htrans a b x h (hb x hx)
    · rw [insert_sorted, if_neg h]
      have hba : le b a = true := (htotal a b).resolve_left h
      refine List.pairwise_cons.mpr ⟨?_, ih ht⟩
      intro x hx
      rcases mem_insert_sorted.mp hx with rfl | hx
      · exact hba
      · exact hb x hx

/-- `sort_by` sorts: its output is pairwise ordered by the comparator. -/
theorem pairwise_sort_by {le : α → α → Bool}
    (htrans : ∀ a b c, le a b = true → le b c = true → le a c = true)
    (htotal : ∀ a b, le a b = true ∨ le b a = true)
    (l : List α) :
    (sort_by le l).Pairwise (fun x y => le x y = true) := by
  induction l with
  | nil => exact List.Pairwise.nil
  | cons a t ih => exact pairwise_insert_sorted htrans htotal a _ ih

/-- `sort_by` keeps exactly the input elements. -/
theorem mem_sort_by {le : α → α → Bool} {x : α} {l : List α} :
    x ∈ sort_by le l ↔ x ∈ l := by
  induction l with
  | nil => simp [sort_by]
  | cons a t ih => simp [sort_by, mem_insert_sorted, ih]

/-- What a successful `parse_ls_line` guarantees about the produced
entry: name from the 9th field on, never `\".\"` or `\"..\"`, `is_dir` from
the first permission character, `size` from the 5th field (default 0),
and the path joined from the queried directory. -/
theorem parse_ls_line_eq_some {path line : Str} {e : FileEntry}
    (h : parse_ls_line path line = some e) :
    e.name = List.intercalate " ".data ((split_whitespace line).drop 8)
  ∧ e.name ≠ ".".data ∧ e.name ≠ "..".data
  ∧ e.is_dir = str_starts_with ((split_whitespace line).getD 0 []) "d".data
  ∧ e.size = (parse_uint 18446744073709551615 ((split_whitespace line).getD 4 [])).getD 0
  ∧ e.path = (if path = "/".data then "/".data ++ e.name
      else trim_end_matches '/' path ++ "/".data ++ e.name) := by
  unfold parse_ls_line at h
  dsimp only at h
  split at h
  · exact absurd h (by simp)
  · split at h
    · exact absurd h (by simp)
    · rename_i h9 hdot
      obtain rfl := Option.some.inj h
      refine ⟨rfl, fun hh => hdot (Or.inl hh), fun hh => hdot (Or.inr hh), rfl, rfl, rfl⟩

/-- C5: the directory-listing parse skips the first summary line, never
emits `"."` or `".."`, derives `is_dir`, `size`, `name` and `path` as
specified, sorts directories-first then case-insensitively by name, and
on the queried path `"/data"` the example line yields
`{name: "uploads", path: "/data/uploads", is_dir: true, size: 4096}`;
on an owned container `list_files` returns exactly this parse of the
runtime's listing output. -/
theorem list_files_parse_properties :
    parse_ls_line "/data".data "drwxr-xr-x 2 root root 4096 Jan 1 00:00 uploads".data
        = some ⟨"uploads".data, "/data/uploads".data, true, 4096⟩
  ∧ (∀ l0 l0' ls path, list_files_parse_lines (l0 :: ls) path
        = list_files_parse_lines (l0' :: ls) path)
  ∧ list_files_parse "total 8\ndrwxr-xr-x 2 root root 4096 Jan 1 00:00 uploads".data
        "/data".data = [⟨"uploads".data, "/data/uploads".data, true, 4096⟩]
  ∧ (∀ output path e, e ∈ list_files_parse output path →
        e.name ≠ ".".data ∧ e.name ≠ "..".data)
  ∧ (∀ output path, (list_files_parse output path).Pairwise
        (fun a b => file_entry_le a b = true))
  ∧ (∀ path line e, parse_ls_line path line = some e →
        e.is_dir = str_starts_with ((split_whitespace line).getD 0 []) "d".data
      ∧ e.size = (parse_uint 18446744073709551615 ((split_whitespace line).getD 4 [])).getD 0
      ∧ e.name = List.intercalate " ".data ((split_whitespace line).drop 8)
      ∧ e.path = (if path = "/".data then "/".data ++ e.name
          else trim_end_matches '/' path ++ "/".data ++ e.name))
  ∧ (∀ rt name path out, is_sftp_container rt name = true →
        rt.exec_ls_cmd name path = Except.ok out →
        list_files rt name path = Except.ok (list_files_parse out path)) := by
  refine ⟨by decide, ?_, by decide, ?_, ?_, ?_, ?_⟩
  · intro l0 l0' ls path
    rfl
  · intro output path e he
    unfold list_files_parse list_files_parse_lines at he
    obtain ⟨line, hline, hp⟩ := List.mem_filterMap.mp (mem_sort_by.mp he)
    have h := parse_ls_line_eq_some hp
    exact ⟨h.2.1, h.2.2.1⟩
  · intro output path
    exact pairwise_sort_by file_entry_le_trans file_entry_le_total _
  · intro path line e hp
    have h := parse_ls_line_eq_some hp
    exact ⟨h.2.2.2.1, h.2.2.2.2.1, h.1, h.2.2.2.2.2⟩
  · intro rt name path out hgate hexec
    unfold list_files
    simp [hgate, hexec]
